import Mathlib

/-!
# Verification of the expo-camera next Camera bridge and the GL command bridge design

Shallow embedding of `packages/expo-camera/src/next/Camera.tsx` (event throttling,
picture-saved callback registry, option sanitisation, availability queries), plus a
model of the Render Thread Dispatcher / Context Registry described by the design
document (whose native sources are referenced by the build script but not present).
-/

/-! ## Event throttling (`_onObjectDetected`, `EventThrottleMs`, `_lastEvents`) -/

/-- `EventThrottleMs = 500` from Camera.tsx line 30. -/
def EventThrottleMs : Nat := 500

/-- An object-detection native event: a `type` discriminator plus an abstract
payload standing for the remaining fields. -/
structure DetectionEvent where
  type : String
  payload : String
deriving DecidableEq

/-- Model of `JSON.stringify` applied to a `DetectionEvent`: an injective,
never-empty serialization of the whole event (JSON of an object always starts
with a brace, hence is never the empty string). -/
def stringifyEvent (e : DetectionEvent) : String :=
  "(type:" ++ e.type ++ ",payload:" ++ e.payload ++ ")"

/-- The per-component throttle caches `_lastEvents` (serialized last delivered
event per type) and `_lastEventsTimes` (delivery wall-clock time per type,
milliseconds). Absent keys are `none`. -/
structure ThrottleState where
  lastEvents : String → Option String
  lastEventsTimes : String → Option Nat

/-- The JS truthiness-and-equality suppression test of `_onObjectDetected`:
`_lastEvents[type] && _lastEventsTimes[type] && JSON.stringify(e) === _lastEvents[type]
&& now - _lastEventsTimes[type] < EventThrottleMs`. A stored string is truthy
iff non-empty; a stored `Date` is always truthy, so presence suffices. -/
def throttleSuppressed (now : Nat) (e : DetectionEvent) (st : ThrottleState) : Bool :=
  match st.lastEvents e.type, st.lastEventsTimes e.type with
  | some s, some tm =>
      (s ≠ "" : Bool) && (stringifyEvent e == s) &&
        decide ((now : Int) - (tm : Int) < (EventThrottleMs : Int))
  | _, _ => false

/-- `_onObjectDetected(callback)` handler body, at wall-clock time `now`.
Returns whether the callback was invoked, and the new cache state. -/
def onObjectDetected (hasCallback : Bool) (now : Nat) (e : DetectionEvent)
    (st : ThrottleState) : Bool × ThrottleState :=
  if throttleSuppressed now e st then
    (false, st)
  else if hasCallback then
    (true,
      { lastEvents := fun t => if t = e.type then some (stringifyEvent e) else st.lastEvents t,
        lastEventsTimes := fun t => if t = e.type then some now else st.lastEventsTimes t })
  else
    (false, st)

/-! ## Picture-saved callback registry (`_PICTURE_SAVED_CALLBACKS`, `_onPictureSaved`) -/

/-- Callbacks are opaque; a registered callback is identified by a token.
`_PICTURE_SAVED_CALLBACKS` maps picture ids to registered callbacks; absent
keys are `none`. Registered callbacks are JS functions, hence truthy. -/
def PictureRegistry : Type := Nat → Option Nat

/-- `_onPictureSaved({nativeEvent: {id, data}})`: look up the callback under
`id`; if present, invoke it and delete the entry. Returns the invoked callback
token (if any) and the new registry. -/
def onPictureSaved (id : Nat) (reg : PictureRegistry) : Option Nat × PictureRegistry :=
  match reg id with
  | some cb => (some cb, fun k => if k = id then none else reg k)
  | none => (none, reg)

/-- A stream of picture-saved events (their ids) processed in order, logging
each invocation as an `(id, callback)` pair. -/
def runPictureEvents : List Nat → PictureRegistry → List (Nat × Nat) × PictureRegistry
  | [], reg => ([], reg)
  | id :: rest, reg =>
      let r := onPictureSaved id reg
      let p := runPictureEvents rest r.2
      ((match r.1 with
        | some cb => [(id, cb)]
        | none => []) ++ p.1, p.2)

/-! ## Option sanitisation (`ensurePictureOptions`, `ensureRecordingOptions`,
`_GLOBAL_PICTURE_ID`) -/

/-- A JS value standing for fields the functions do not inspect. -/
inductive JSVal where
  | vnull
  | vnum (n : Int)
  | vstr (s : String)
  | vbool (b : Bool)
deriving DecidableEq

/-- A `CameraPictureOptions` record. `quality` is a JS number (modelled as a
rational; `NaN` is not modelled — only the falsiness of `0` and of absence
matters here). `onPictureSaved` holds the callback token when present.
`others` carries every remaining field the function never inspects. -/
structure PictureOptions where
  quality : Option Rat
  onPictureSaved : Option Nat
  id : Option Nat
  fastMode : Option Bool
  others : String → Option JSVal

/-- The empty options object `{}`. -/
def emptyPictureOptions : PictureOptions :=
  { quality := none, onPictureSaved := none, id := none, fastMode := none,
    others := fun _ => none }

/-- The argument actually passed to `ensurePictureOptions`: `undefined` is the
`none` of the surrounding `Option`; otherwise `null`, a primitive, or a proper
options object. -/
inductive PictureArg where
  | null
  | num (n : Int)
  | str (s : String)
  | bool (b : Bool)
  | obj (o : PictureOptions)

/-- `!options || typeof options !== 'object'`: everything but a proper object
(`undefined`, `null`, numbers, strings, booleans) is malformed and replaced
by `{}` in the source. -/
def malformedPictureArg : Option PictureArg → Bool
  | some (.obj _) => false
  | _ => true

/-- JS falsiness of the `quality` field: absent (`undefined`) or `0`. -/
def qualityFalsy : Option Rat → Bool
  | none => true
  | some q => q == 0

/-- Module-level mutable state of Camera.tsx: the `_GLOBAL_PICTURE_ID` counter
(initially 1) and the `_PICTURE_SAVED_CALLBACKS` registry. -/
structure BridgeState where
  nextId : Nat
  callbacks : PictureRegistry

/-- `ensurePictureOptions(options)`: substitute `{}` for malformed input,
default falsy `quality` to `1`, and when `onPictureSaved` is present register
it under a fresh id (`_GLOBAL_PICTURE_ID++`) and set `id` and `fastMode`. -/
def ensurePictureOptions (options : Option PictureArg) (st : BridgeState) :
    PictureOptions × BridgeState :=
  let base : PictureOptions :=
    match options with
    | some (.obj o) => o
    | _ => emptyPictureOptions
  let withQ : PictureOptions :=
    if qualityFalsy base.quality then { base with quality := some 1 } else base
  match withQ.onPictureSaved with
  | some cb =>
      ({ withQ with id := some st.nextId, fastMode := some true },
       { nextId := st.nextId + 1,
         callbacks := fun k => if k = st.nextId then some cb else st.callbacks k })
  | none => (withQ, st)

/-- A `CameraRecordingOptions` record: the function inspects no field, so it is
just a bag of fields. -/
structure RecordingOptions where
  fields : String → Option JSVal

/-- The argument passed to `ensureRecordingOptions`. -/
inductive RecordingArg where
  | null
  | num (n : Int)
  | str (s : String)
  | bool (b : Bool)
  | obj (o : RecordingOptions)

/-- `ensureRecordingOptions(options)`: `options || {}` then the
`typeof !== 'object'` guard — a proper object passes through unchanged,
everything else becomes `{}`. -/
def ensureRecordingOptions : Option RecordingArg → RecordingOptions
  | some (.obj o) => o
  | _ => ⟨fun _ => none⟩

/-- A recording argument that is not a proper options object. -/
def malformedRecordingArg : Option RecordingArg → Bool
  | some (.obj _) => false
  | _ => true

/-- Does the (sanitised) argument carry an `onPictureSaved` callback? -/
def hasSavedCallback : Option PictureArg → Bool
  | some (.obj o) => o.onPictureSaved.isSome
  | _ => false

/-- A sequence of `ensurePictureOptions` calls threaded through the module
state, logging the fresh id assigned by each call that registers a callback. -/
def runEnsure : List (Option PictureArg) → BridgeState → List Nat × BridgeState
  | [], st => ([], st)
  | o :: rest, st =>
      let r := ensurePictureOptions o st
      let p := runEnsure rest r.2
      ((if hasSavedCallback o then [st.nextId] else []) ++ p.1, p.2)

/-- The outcome of the argument-preparation step of `takePictureAsync`, with an
explicit `invalidArgument` alternative so the claimed error behaviour is
statable: the source never produces it — every path proceeds. -/
inductive PrepOutcome where
  | proceeded (o : PictureOptions) (st : BridgeState)
  | invalidArgument

/-- Argument preparation as performed by `takePictureAsync`: it always
proceeds with `ensurePictureOptions`' result; no input is rejected. -/
def preparePicture (options : Option PictureArg) (st : BridgeState) : PrepOutcome :=
  .proceeded (ensurePictureOptions options st).1 (ensurePictureOptions options st).2

/-! ## Static availability queries (`Camera.isAvailableAsync`,
`Camera.getAvailableCameraTypesAsync`, `Camera.getAvailableVideoCodecsAsync`) -/

/-- The underlying `CameraManager` native module: each availability method is
either absent (`undefined`, falsy) or a function (truthy) producing a value. -/
structure CameraManagerModel where
  isAvailableAsync : Option (Unit → Bool)
  getAvailableCameraTypesAsync : Option (Unit → List String)
  getAvailableVideoCodecsAsync : Option (Unit → List String)

/-- Result of an availability query: a resolved value, or a thrown
`UnavailabilityError(moduleName, functionName)`. -/
inductive QueryResult (α : Type) where
  | ok (a : α)
  | unavailabilityError (moduleName functionName : String)
deriving DecidableEq

/-- `Camera.isAvailableAsync`. -/
def cameraIsAvailableAsync (m : CameraManagerModel) : QueryResult Bool :=
  match m.isAvailableAsync with
  | none => .unavailabilityError "expo-camera" "isAvailableAsync"
  | some f => .ok (f ())

/-- `Camera.getAvailableCameraTypesAsync`. -/
def cameraGetAvailableCameraTypesAsync (m : CameraManagerModel) : QueryResult (List String) :=
  match m.getAvailableCameraTypesAsync with
  | none => .unavailabilityError "expo-camera" "getAvailableCameraTypesAsync"
  | some f => .ok (f ())

/-- `Camera.getAvailableVideoCodecsAsync` (note the different module name
string in the source). -/
def cameraGetAvailableVideoCodecsAsync (m : CameraManagerModel) : QueryResult (List String) :=
  match m.getAvailableVideoCodecsAsync with
  | none => .unavailabilityError "Camera" "getAvailableVideoCodecsAsync"
  | some f => .ok (f ())

/-! ## Render Thread Dispatcher / Context Registry

Modelled from the spec: the native GL command bridge (Context Registry,
Render Thread Dispatcher of sections 4.3–4.4; its sources
`EXGLContextManager.cpp`, `EXWebGLRenderer.cpp`, … are named by the expo-gl
build script but are not present in the repository snapshot). One context:
deferred commands receive strictly increasing sequence numbers at submission,
the dispatcher drains the FIFO queue in order, and destroying the context
flags it disposed, resolves every still-queued command's completion channel
with `ContextLost`, and executes nothing afterwards. -/

/-- Modelled from the spec: one deferred command — its submission sequence
number and an opaque operation code. -/
structure GLCommand where
  seq : Nat
  op : Nat
deriving DecidableEq

/-- Modelled from the spec: how a command's completion channel was resolved —
executed normally, or cancelled with `ContextLost` at context teardown. -/
inductive GLResolution where
  | completed (seq : Nat)
  | contextLost (seq : Nat)
deriving DecidableEq

/-- Modelled from the spec: the state of one graphics context — the next
sequence number, the FIFO command queue, the sequence numbers of executed
commands in execution order, the resolution log, and the disposed flag. -/
structure GLContext where
  nextSeq : Nat
  queue : List GLCommand
  executed : List Nat
  resolutions : List GLResolution
  disposed : Bool
deriving DecidableEq

/-- Modelled from the spec: a freshly created context. -/
def initGLContext : GLContext :=
  { nextSeq := 0, queue := [], executed := [], resolutions := [], disposed := false }

/-- Modelled from the spec: submitting a deferred command assigns the next
sequence number and appends to the FIFO queue; a disposed context accepts no
new commands (the host surface rejects them before enqueue). -/
def glSubmit (op : Nat) (st : GLContext) : GLContext :=
  if st.disposed then st
  else
    { st with
      nextSeq := st.nextSeq + 1,
      queue := st.queue ++ [{ seq := st.nextSeq, op := op }] }

/-- Modelled from the spec: the dispatcher pulls the next command off the queue
in order, executes it exactly once, and resolves its completion channel;
nothing executes on a disposed context. -/
def glStep (st : GLContext) : GLContext :=
  if st.disposed then st
  else
    match st.queue with
    | [] => st
    | c :: rest =>
        { st with
          queue := rest,
          executed := st.executed ++ [c.seq],
          resolutions := st.resolutions ++ [.completed c.seq] }

/-- Modelled from the spec: destroying the context flags it disposed, cancels
every not-yet-executed command by resolving its completion channel with
`ContextLost`, and empties the queue; `destroy` is idempotent. -/
def glDestroy (st : GLContext) : GLContext :=
  if st.disposed then st
  else
    { st with
      disposed := true,
      queue := [],
      resolutions := st.resolutions ++ st.queue.map (fun c => .contextLost c.seq) }

/-- Modelled from the spec: the events a context can undergo. -/
inductive GLAct where
  | submit (op : Nat)
  | step
  | destroy
deriving DecidableEq

/-- Modelled from the spec: apply one event. -/
def glApply (a : GLAct) (st : GLContext) : GLContext :=
  match a with
  | .submit op => glSubmit op st
  | .step => glStep st
  | .destroy => glDestroy st

/-- Modelled from the spec: run a trace of events from a given state. -/
def glRunFrom (st : GLContext) (acts : List GLAct) : GLContext :=
  acts.foldl (fun s a => glApply a s) st

/-- Modelled from the spec: run a trace of events from the initial state. -/
def glRun (acts : List GLAct) : GLContext :=
  glRunFrom initGLContext acts

/-! # Theorems -/

/-! ## Helper lemmas -/

/-- `JSON.stringify` of an object is never the empty string. -/
theorem stringifyEvent_ne_empty (e : DetectionEvent) : stringifyEvent e ≠ "" := by
  intro h
  have hlen := congrArg String.length h
  simp [stringifyEvent, String.length_append] at hlen
  exact absurd hlen.1.1.1.1 (by decide)

/-- The callback is invoked exactly when it is present and the event is not
suppressed. -/
theorem onObjectDetected_fst (hasCb : Bool) (now : Nat) (e : DetectionEvent)
    (st : ThrottleState) :
    (onObjectDetected hasCb now e st).1 = (!throttleSuppressed now e st && hasCb) := by
  unfold onObjectDetected
  by_cases hs : throttleSuppressed now e st <;> cases hasCb <;> simp [hs]

/-- The suppression test holds exactly when the `type`-keyed caches hold the
event's serialization and a delivery time less than `EventThrottleMs` ago. -/
theorem throttleSuppressed_iff (now : Nat) (e : DetectionEvent) (st : ThrottleState) :
    throttleSuppressed now e st = true ↔
      (st.lastEvents e.type = some (stringifyEvent e) ∧
       ∃ tm, st.lastEventsTimes e.type = some tm ∧
         (now : Int) - (tm : Int) < (EventThrottleMs : Int)) := by
  unfold throttleSuppressed
  rcases hE : st.lastEvents e.type with _ | s <;>
    rcases hT : st.lastEventsTimes e.type with _ | tm <;> simp
  intro _
  constructor
  · rintro ⟨_, heq⟩
    exact heq.symm
  · intro heq
    refine ⟨?_, heq.symm⟩
    rw [heq]
    exact stringifyEvent_ne_empty e

/-! ## C1: throttling of `_onObjectDetected` -/

/-- C1: with a callback present, the callback is NOT invoked exactly when a
previous event of the same type was delivered, the incoming event's
serialization equals the stored one, and strictly less than `EventThrottleMs`
milliseconds elapsed since that delivery; in every other case the callback is
invoked and the type's last-seen cache entry is updated to the event's
serialization and the current time. -/
theorem onObjectDetected_throttle_spec (now : Nat) (e : DetectionEvent) (st : ThrottleState) :
    ((onObjectDetected true now e st).1 = false ↔
      (st.lastEvents e.type = some (stringifyEvent e) ∧
       ∃ tm, st.lastEventsTimes e.type = some tm ∧
         (now : Int) - (tm : Int) < (EventThrottleMs : Int))) ∧
    ((onObjectDetected true now e st).1 = true →
      (onObjectDetected true now e st).2.lastEvents e.type = some (stringifyEvent e) ∧
      (onObjectDetected true now e st).2.lastEventsTimes e.type = some now) := by
  constructor
  · rw [onObjectDetected_fst, ← throttleSuppressed_iff]
    cases throttleSuppressed now e st <;> simp
  · intro hinv
    have hns : throttleSuppressed now e st = false := by
      rw [onObjectDetected_fst] at hinv
      cases hsup : throttleSuppressed now e st
      · rfl
      · rw [hsup] at hinv
        simp at hinv
    unfold onObjectDetected
    simp [hns]

/-- Witness for C1: on an empty cache the callback fires. -/
theorem onObjectDetected_throttle_spec_witness :
    (onObjectDetected true 100 ⟨"face", "a"⟩
      { lastEvents := fun _ => none, lastEventsTimes := fun _ => none }).1 = true := by
  rcases hb : (onObjectDetected true 100 ⟨"face", "a"⟩
      { lastEvents := fun _ => none, lastEventsTimes := fun _ => none }).1 with _ | _
  · have h := (onObjectDetected_throttle_spec 100 ⟨"face", "a"⟩
      { lastEvents := fun _ => none, lastEventsTimes := fun _ => none }).1.mp hb
    simp at h
  · rfl

/-! ## C5: the throttle cache is per event kind -/

/-- C5: handling an event of type `t` leaves the cache entries of every other
type unchanged, and the delivery decision depends only on the entries keyed by
`t`, so events of one type never suppress or release events of another. -/
theorem onObjectDetected_per_type_frame (hasCb : Bool) (now : Nat) (e : DetectionEvent)
    (st st' : ThrottleState) :
    (∀ t, t ≠ e.type →
      (onObjectDetected hasCb now e st).2.lastEvents t = st.lastEvents t ∧
      (onObjectDetected hasCb now e st).2.lastEventsTimes t = st.lastEventsTimes t) ∧
    (st.lastEvents e.type = st'.lastEvents e.type →
     st.lastEventsTimes e.type = st'.lastEventsTimes e.type →
      (onObjectDetected hasCb now e st).1 = (onObjectDetected hasCb now e st').1) := by
  constructor
  · intro t ht
    unfold onObjectDetected
    by_cases hs : throttleSuppressed now e st <;> cases hasCb <;> simp [hs, ht]
  · intro hE hT
    rw [onObjectDetected_fst, onObjectDetected_fst]
    have : throttleSuppressed now e st = throttleSuppressed now e st' := by
      unfold throttleSuppressed
      rw [hE, hT]
    rw [this]

/-- Witness for C5: a face event leaves the qr entry alone, and equal
face-entries give equal decisions. -/
theorem onObjectDetected_per_type_frame_witness :
    (onObjectDetected true 100 ⟨"face", "a"⟩
      { lastEvents := fun _ => none, lastEventsTimes := fun _ => none }).2.lastEvents "qr" = none ∧
    (onObjectDetected true 100 ⟨"face", "a"⟩
      { lastEvents := fun _ => none, lastEventsTimes := fun _ => none }).1 =
    (onObjectDetected true 100 ⟨"face", "a"⟩
      { lastEvents := fun _ => none, lastEventsTimes := fun t => if t = "qr" then some 90 else none }).1 := by
  have h := onObjectDetected_per_type_frame true 100 ⟨"face", "a"⟩
    { lastEvents := fun _ => none, lastEventsTimes := fun _ => none }
    { lastEvents := fun _ => none, lastEventsTimes := fun t => if t = "qr" then some 90 else none }
  exact ⟨(h.1 "qr" (by decide)).1, h.2 rfl (by simp)⟩

/-! ## C2: picture-saved callbacks resolve at most once -/

/-- Unfolding lemma: one picture-saved event. -/
theorem runPictureEvents_cons (e : Nat) (rest : List Nat) (reg : PictureRegistry) :
    runPictureEvents (e :: rest) reg =
      ((match (onPictureSaved e reg).1 with
        | some cb => [(e, cb)]
        | none => []) ++ (runPictureEvents rest (onPictureSaved e reg).2).1,
       (runPictureEvents rest (onPictureSaved e reg).2).2) := rfl

/-- `_onPictureSaved` when the id is registered. -/
theorem onPictureSaved_some (id cb : Nat) (reg : PictureRegistry) (h : reg id = some cb) :
    onPictureSaved id reg = (some cb, fun k => if k = id then none else reg k) := by
  unfold onPictureSaved
  rw [h]

/-- `_onPictureSaved` when the id is unregistered. -/
theorem onPictureSaved_none (id : Nat) (reg : PictureRegistry) (h : reg id = none) :
    onPictureSaved id reg = (none, reg) := by
  unfold onPictureSaved
  rw [h]

/-- If `id` is unregistered, no event in the stream ever invokes a callback
for `id`. -/
theorem runPictureEvents_count_zero (events : List Nat) (reg : PictureRegistry) (id : Nat)
    (h : reg id = none) :
    ((runPictureEvents events reg).1.countP (fun p => p.1 == id)) = 0 := by
  induction events generalizing reg with
  | nil => simp [runPictureEvents]
  | cons e rest ih =>
    rw [runPictureEvents_cons]
    rcases he : reg e with _ | cb
    · rw [onPictureSaved_none e reg he]
      simpa using ih reg h
    · have hne : e ≠ id := by
        intro hc
        rw [hc, h] at he
        exact Option.noConfusion he
      rw [onPictureSaved_some e cb reg he]
      simp only [List.countP_append, List.countP_cons]
      have h3 : ((fun k => if k = e then none else reg k) : PictureRegistry) id = none := by
        show (if id = e then none else reg id) = none
        rw [if_neg (Ne.symm hne)]
        exact h
      rw [ih _ h3]
      simp [hne]

/-- At most one invocation per id in any event stream. -/
theorem runPictureEvents_count_le_one (events : List Nat) (reg : PictureRegistry) (id : Nat) :
    ((runPictureEvents events reg).1.countP (fun p => p.1 == id)) ≤ 1 := by
  induction events generalizing reg with
  | nil => simp [runPictureEvents]
  | cons e rest ih =>
    rw [runPictureEvents_cons]
    rcases he : reg e with _ | cb
    · rw [onPictureSaved_none e reg he]
      simpa using ih reg
    · rw [onPictureSaved_some e cb reg he]
      simp only [List.countP_append, List.countP_cons]
      by_cases hid : e = id
      · subst hid
        have h3 : ((fun k => if k = e then none else reg k) : PictureRegistry) e = none := by
          show (if e = e then none else reg e) = none
          rw [if_pos rfl]
        rw [runPictureEvents_count_zero rest _ e h3]
        simp
      · have h4 := ih (fun k => if k = e then none else reg k)
        simpa [hid] using h4

/-- C2: every registered picture-saved callback resolves at most once — the
first event carrying an id invokes the callback stored under that id and
removes it from the registry; an event whose id is unregistered invokes
nothing and leaves the registry unchanged; over any event stream an id is
invoked at most once. -/
theorem onPictureSaved_at_most_once (id : Nat) (reg : PictureRegistry) (events : List Nat) :
    (∀ cb, reg id = some cb →
      (onPictureSaved id reg).1 = some cb ∧
      (onPictureSaved id reg).2 id = none ∧
      ∀ k, k ≠ id → (onPictureSaved id reg).2 k = reg k) ∧
    (reg id = none →
      (onPictureSaved id reg).1 = none ∧ (onPictureSaved id reg).2 = reg) ∧
    ((runPictureEvents events reg).1.countP (fun p => p.1 == id)) ≤ 1 := by
  refine ⟨?_, ?_, runPictureEvents_count_le_one events reg id⟩
  · intro cb hcb
    rw [onPictureSaved_some id cb reg hcb]
    refine ⟨rfl, ?_, ?_⟩
    · show (if id = id then none else reg id) = none
      rw [if_pos rfl]
    · intro k hk
      show (if k = id then none else reg k) = reg k
      rw [if_neg hk]
  · intro hn
    rw [onPictureSaved_none id reg hn]
    exact ⟨rfl, rfl⟩

/-- Witness for C2: a registry holding callback 7 under id 1, hit twice. -/
theorem onPictureSaved_at_most_once_witness :
    (onPictureSaved 1 (fun k => if k = 1 then some 7 else none)).1 = some 7 ∧
    ((runPictureEvents [1, 1] (fun k => if k = 1 then some 7 else none)).1.countP
      (fun p => p.1 == 1)) ≤ 1 := by
  have h := onPictureSaved_at_most_once 1 (fun k => if k = 1 then some 7 else none) [1, 1]
  exact ⟨(h.1 7 (by simp)).1, h.2.2⟩

/-! ## C3: bridge-assigned picture ids are monotone and never reused -/

/-- The counter advances exactly when a callback is registered. -/
theorem ensurePictureOptions_nextId (o : Option PictureArg) (st : BridgeState) :
    (ensurePictureOptions o st).2.nextId =
      if hasSavedCallback o then st.nextId + 1 else st.nextId := by
  rcases o with _ | a
  · simp [ensurePictureOptions, hasSavedCallback, emptyPictureOptions, qualityFalsy]
  · cases a with
    | obj o =>
      by_cases hq : qualityFalsy o.quality = true <;>
        rcases ho : o.onPictureSaved with _ | cb <;>
          simp [ensurePictureOptions, hasSavedCallback, hq, ho]
    | null => simp [ensurePictureOptions, hasSavedCallback, emptyPictureOptions, qualityFalsy]
    | num n => simp [ensurePictureOptions, hasSavedCallback, emptyPictureOptions, qualityFalsy]
    | str s => simp [ensurePictureOptions, hasSavedCallback, emptyPictureOptions, qualityFalsy]
    | bool b => simp [ensurePictureOptions, hasSavedCallback, emptyPictureOptions, qualityFalsy]

/-- Unfolding lemma: one `ensurePictureOptions` call in a sequence. -/
theorem runEnsure_cons (o : Option PictureArg) (rest : List (Option PictureArg))
    (st : BridgeState) :
    runEnsure (o :: rest) st =
      ((if hasSavedCallback o then [st.nextId] else []) ++
        (runEnsure rest (ensurePictureOptions o st).2).1,
       (runEnsure rest (ensurePictureOptions o st).2).2) := rfl

/-- Every id a sequence of calls assigns is at least the starting counter. -/
theorem runEnsure_lower (calls : List (Option PictureArg)) (st : BridgeState) :
    ∀ i ∈ (runEnsure calls st).1, st.nextId ≤ i := by
  induction calls generalizing st with
  | nil => simp [runEnsure]
  | cons o rest ih =>
    intro i hi
    rw [runEnsure_cons] at hi
    by_cases hc : hasSavedCallback o
    · rw [if_pos hc] at hi
      rcases List.mem_append.mp hi with h1 | h2
      · rw [List.mem_singleton.mp h1]
      · have := ih (ensurePictureOptions o st).2 i h2
        rw [ensurePictureOptions_nextId, if_pos hc] at this
        omega
    · rw [if_neg hc] at hi
      simp only [List.nil_append] at hi
      have := ih (ensurePictureOptions o st).2 i hi
      rw [ensurePictureOptions_nextId, if_neg hc] at this
      exact this

/-- Assigned ids are strictly increasing along any call sequence. -/
theorem runEnsure_pairwise (calls : List (Option PictureArg)) (st : BridgeState) :
    List.Pairwise (· < ·) (runEnsure calls st).1 := by
  induction calls generalizing st with
  | nil => simp [runEnsure]
  | cons o rest ih =>
    rw [runEnsure_cons]
    by_cases hc : hasSavedCallback o
    · rw [if_pos hc]
      simp only [List.singleton_append]
      refine List.pairwise_cons.mpr ⟨?_, ih _⟩
      intro b hb
      have hlow := runEnsure_lower rest (ensurePictureOptions o st).2 b hb
      rw [ensurePictureOptions_nextId, if_pos hc] at hlow
      omega
    · rw [if_neg hc]
      simpa using ih (ensurePictureOptions o st).2

/-- C3: along every sequence of `ensurePictureOptions` calls, each call that
carries an `onPictureSaved` callback is assigned an id strictly greater than
every id assigned by any earlier call, that id is written into the returned
record, and a callback is registered under it — so no two registered
callbacks ever share an id. -/
theorem ensurePictureOptions_ids_monotone (calls : List (Option PictureArg))
    (st : BridgeState) :
    List.Pairwise (· < ·) (runEnsure calls st).1 ∧
    ∀ o s, hasSavedCallback o = true →
      (ensurePictureOptions o s).1.id = some s.nextId ∧
      (ensurePictureOptions o s).2.callbacks s.nextId ≠ none := by
  refine ⟨runEnsure_pairwise calls st, ?_⟩
  intro o s hc
  rcases o with _ | a
  · exact absurd hc (by simp [hasSavedCallback])
  · cases a with
    | obj ob =>
      rcases ho : ob.onPictureSaved with _ | cb
      · rw [hasSavedCallback] at hc
        rw [ho] at hc
        exact absurd hc (by simp)
      · by_cases hq : qualityFalsy ob.quality = true <;>
          simp [ensurePictureOptions, hq, ho]
    | null => exact absurd hc (by simp [hasSavedCallback])
    | num n => exact absurd hc (by simp [hasSavedCallback])
    | str s2 => exact absurd hc (by simp [hasSavedCallback])
    | bool b => exact absurd hc (by simp [hasSavedCallback])

/-- Witness for C3: two callback-carrying calls from counter 1 get ids 1, 2. -/
theorem ensurePictureOptions_ids_monotone_witness :
    List.Pairwise (· < ·)
      (runEnsure
        [some (.obj { emptyPictureOptions with onPictureSaved := some 5 }),
         some (.obj { emptyPictureOptions with onPictureSaved := some 6 })]
        { nextId := 1, callbacks := fun _ => none }).1 ∧
    (ensurePictureOptions (some (.obj { emptyPictureOptions with onPictureSaved := some 5 }))
      { nextId := 1, callbacks := fun _ => none }).1.id = some 1 := by
  have h := ensurePictureOptions_ids_monotone
    [some (.obj { emptyPictureOptions with onPictureSaved := some 5 }),
     some (.obj { emptyPictureOptions with onPictureSaved := some 6 })]
    { nextId := 1, callbacks := fun _ => none }
  refine ⟨h.1, ?_⟩
  have h2 := h.2 (some (.obj { emptyPictureOptions with onPictureSaved := some 5 }))
    { nextId := 1, callbacks := fun _ => none } (by simp [hasSavedCallback])
  exact h2.1

/-! ## C4: malformed arguments are substituted, not rejected -/

/-- Counterexample to C4: the numeric (malformed) input `5` does not produce
an `InvalidArgument` error — argument preparation proceeds. -/
theorem preparePicture_malformed_not_error :
    malformedPictureArg (some (.num 5)) = true ∧
    preparePicture (some (.num 5)) { nextId := 1, callbacks := fun _ => none } ≠
      PrepOutcome.invalidArgument := by
  refine ⟨rfl, ?_⟩
  simp [preparePicture]

/-- C4 amended: a malformed argument (null, a number, a string, a boolean, or
`undefined`) is never rejected — `ensurePictureOptions` silently substitutes
the empty options object (then defaults `quality` to 1) and the call proceeds;
`ensureRecordingOptions` silently substitutes the empty options object. -/
theorem prepare_malformed_substitutes (v : Option PictureArg) (r : Option RecordingArg)
    (st : BridgeState) (hv : malformedPictureArg v = true)
    (hr : malformedRecordingArg r = true) :
    preparePicture v st =
      PrepOutcome.proceeded { emptyPictureOptions with quality := some 1 } st ∧
    ensureRecordingOptions r = ⟨fun _ => none⟩ := by
  constructor
  · have hbase : (match v with
        | some (.obj o) => o
        | _ => emptyPictureOptions) = emptyPictureOptions := by
      rcases v with _ | a
      · rfl
      · cases a with
        | obj o => exact absurd hv (by simp [malformedPictureArg])
        | null => rfl
        | num n => rfl
        | str s => rfl
        | bool b => rfl
    rcases v with _ | a
    · simp [preparePicture, ensurePictureOptions, emptyPictureOptions, qualityFalsy]
    · cases a with
      | obj o => exact absurd hv (by simp [malformedPictureArg])
      | null => simp [preparePicture, ensurePictureOptions, emptyPictureOptions, qualityFalsy]
      | num n => simp [preparePicture, ensurePictureOptions, emptyPictureOptions, qualityFalsy]
      | str s => simp [preparePicture, ensurePictureOptions, emptyPictureOptions, qualityFalsy]
      | bool b => simp [preparePicture, ensurePictureOptions, emptyPictureOptions, qualityFalsy]
  · rcases r with _ | a
    · rfl
    · cases a with
      | obj o => exact absurd hr (by simp [malformedRecordingArg])
      | null => rfl
      | num n => rfl
      | str s => rfl
      | bool b => rfl

/-- Witness for the amended C4: numeric picture argument, string recording
argument. -/
theorem prepare_malformed_substitutes_witness :
    preparePicture (some (.num 5)) { nextId := 1, callbacks := fun _ => none } =
      PrepOutcome.proceeded { emptyPictureOptions with quality := some 1 }
        { nextId := 1, callbacks := fun _ => none } ∧
    ensureRecordingOptions (some (.str "x")) = ⟨fun _ => none⟩ :=
  prepare_malformed_substitutes (some (.num 5)) (some (.str "x"))
    { nextId := 1, callbacks := fun _ => none } rfl rfl

/-! ## C8: falsy quality — including an explicit 0 — becomes 1 -/

/-- C8: when `quality` is absent or `0` the returned record has `quality = 1`
(so a requested quality of `0` is silently replaced), while any non-zero
quality is preserved. -/
theorem ensurePictureOptions_quality_default (o : PictureOptions) (st : BridgeState) :
    ((o.quality = none ∨ o.quality = some 0) →
      (ensurePictureOptions (some (.obj o)) st).1.quality = some 1) ∧
    (∀ q : Rat, o.quality = some q → q ≠ 0 →
      (ensurePictureOptions (some (.obj o)) st).1.quality = some q) := by
  constructor
  · intro h
    have hq : qualityFalsy o.quality = true := by
      rcases h with h | h <;> simp [qualityFalsy, h]
    rcases ho : o.onPictureSaved with _ | cb <;>
      simp [ensurePictureOptions, hq, ho]
  · intro q hq hne
    have hfq : qualityFalsy (some q) = false := by
      simp [qualityFalsy, hne]
    rcases ho : o.onPictureSaved with _ | cb <;>
      simp [ensurePictureOptions, hq, hfq, ho]

/-- Witness for C8: quality 0 becomes 1; quality 1/2 is preserved. -/
theorem ensurePictureOptions_quality_default_witness :
    (ensurePictureOptions (some (.obj { emptyPictureOptions with quality := some 0 }))
      { nextId := 1, callbacks := fun _ => none }).1.quality = some 1 ∧
    (ensurePictureOptions (some (.obj { emptyPictureOptions with quality := some (1 / 2) }))
      { nextId := 1, callbacks := fun _ => none }).1.quality = some (1 / 2) := by
  constructor
  · exact (ensurePictureOptions_quality_default
      { emptyPictureOptions with quality := some 0 }
      { nextId := 1, callbacks := fun _ => none }).1 (Or.inr rfl)
  · exact (ensurePictureOptions_quality_default
      { emptyPictureOptions with quality := some (1 / 2) }
      { nextId := 1, callbacks := fun _ => none }).2 (1 / 2) rfl (by norm_num)

/-! ## C9: option sanitisation touches no other field -/

/-- C9: for object inputs `ensurePictureOptions` changes at most `quality`,
`id` and `fastMode` — `onPictureSaved` and all remaining fields pass through;
with no `onPictureSaved` callback, `id` and `fastMode` are untouched too; and
`ensureRecordingOptions` returns every object input entirely unchanged. -/
theorem ensureOptions_frame (o : PictureOptions) (r : RecordingOptions) (st : BridgeState) :
    ((ensurePictureOptions (some (.obj o)) st).1.others = o.others ∧
     (ensurePictureOptions (some (.obj o)) st).1.onPictureSaved = o.onPictureSaved) ∧
    (o.onPictureSaved = none →
      (ensurePictureOptions (some (.obj o)) st).1.id = o.id ∧
      (ensurePictureOptions (some (.obj o)) st).1.fastMode = o.fastMode) ∧
    ensureRecordingOptions (some (.obj r)) = r := by
  refine ⟨?_, ?_, rfl⟩
  · by_cases hq : qualityFalsy o.quality = true <;>
      rcases ho : o.onPictureSaved with _ | cb <;>
        simp [ensurePictureOptions, hq, ho]
  · intro ho
    by_cases hq : qualityFalsy o.quality = true <;>
      simp [ensurePictureOptions, hq, ho]

/-- Witness for C9: an options object with no callback passes `id`, `fastMode`
and the other fields through. -/
theorem ensureOptions_frame_witness :
    (ensurePictureOptions
      (some (.obj { emptyPictureOptions with id := some 9, fastMode := some false }))
      { nextId := 1, callbacks := fun _ => none }).1.id = some 9 ∧
    ensureRecordingOptions (some (.obj ⟨fun _ => some .vnull⟩)) = ⟨fun _ => some .vnull⟩ := by
  have h := ensureOptions_frame
    { emptyPictureOptions with id := some 9, fastMode := some false }
    ⟨fun _ => some .vnull⟩ { nextId := 1, callbacks := fun _ => none }
  exact ⟨(h.2.1 rfl).1, h.2.2⟩

/-! ## C10: availability queries error exactly when the manager method is absent -/

/-- C10: each static availability query throws `UnavailabilityError` exactly
when the corresponding `CameraManager` method is absent, returns that
method's value when present, and never returns silently without a value or an
error. -/
theorem availability_queries_spec (m : CameraManagerModel) :
    (cameraIsAvailableAsync m =
        QueryResult.unavailabilityError "expo-camera" "isAvailableAsync" ↔
      m.isAvailableAsync = none) ∧
    (∀ f, m.isAvailableAsync = some f → cameraIsAvailableAsync m = .ok (f ())) ∧
    (cameraGetAvailableCameraTypesAsync m =
        QueryResult.unavailabilityError "expo-camera" "getAvailableCameraTypesAsync" ↔
      m.getAvailableCameraTypesAsync = none) ∧
    (∀ f, m.getAvailableCameraTypesAsync = some f →
      cameraGetAvailableCameraTypesAsync m = .ok (f ())) ∧
    (cameraGetAvailableVideoCodecsAsync m =
        QueryResult.unavailabilityError "Camera" "getAvailableVideoCodecsAsync" ↔
      m.getAvailableVideoCodecsAsync = none) ∧
    (∀ f, m.getAvailableVideoCodecsAsync = some f →
      cameraGetAvailableVideoCodecsAsync m = .ok (f ())) ∧
    (((∃ b, cameraIsAvailableAsync m = .ok b) ∨
        ∃ s t, cameraIsAvailableAsync m = .unavailabilityError s t) ∧
     ((∃ l, cameraGetAvailableCameraTypesAsync m = .ok l) ∨
        ∃ s t, cameraGetAvailableCameraTypesAsync m = .unavailabilityError s t) ∧
     ((∃ l, cameraGetAvailableVideoCodecsAsync m = .ok l) ∨
        ∃ s t, cameraGetAvailableVideoCodecsAsync m = .unavailabilityError s t)) := by
  refine ⟨?_, ?_, ?_, ?_, ?_, ?_, ?_, ?_, ?_⟩
  · rcases h : m.isAvailableAsync with _ | f <;>
      simp [cameraIsAvailableAsync, h]
  · intro f hf
    simp [cameraIsAvailableAsync, hf]
  · rcases h : m.getAvailableCameraTypesAsync with _ | f <;>
      simp [cameraGetAvailableCameraTypesAsync, h]
  · intro f hf
    simp [cameraGetAvailableCameraTypesAsync, hf]
  · rcases h : m.getAvailableVideoCodecsAsync with _ | f <;>
      simp [cameraGetAvailableVideoCodecsAsync, h]
  · intro f hf
    simp [cameraGetAvailableVideoCodecsAsync, hf]
  · rcases h : m.isAvailableAsync with _ | f
    · exact Or.inr ⟨"expo-camera", "isAvailableAsync", by simp [cameraIsAvailableAsync, h]⟩
    · exact Or.inl ⟨f (), by simp [cameraIsAvailableAsync, h]⟩
  · rcases h : m.getAvailableCameraTypesAsync with _ | f
    · exact Or.inr ⟨"expo-camera", "getAvailableCameraTypesAsync",
        by simp [cameraGetAvailableCameraTypesAsync, h]⟩
    · exact Or.inl ⟨f (), by simp [cameraGetAvailableCameraTypesAsync, h]⟩
  · rcases h : m.getAvailableVideoCodecsAsync with _ | f
    · exact Or.inr ⟨"Camera", "getAvailableVideoCodecsAsync",
        by simp [cameraGetAvailableVideoCodecsAsync, h]⟩
    · exact Or.inl ⟨f (), by simp [cameraGetAvailableVideoCodecsAsync, h]⟩

/-- Witness for C10: a web-like manager with only `isAvailableAsync`. -/
theorem availability_queries_spec_witness :
    cameraIsAvailableAsync
      { isAvailableAsync := some fun _ => true,
        getAvailableCameraTypesAsync := none,
        getAvailableVideoCodecsAsync := none } = .ok true ∧
    cameraGetAvailableVideoCodecsAsync
      { isAvailableAsync := some fun _ => true,
        getAvailableCameraTypesAsync := none,
        getAvailableVideoCodecsAsync := none } =
      QueryResult.unavailabilityError "Camera" "getAvailableVideoCodecsAsync" := by
  have h := availability_queries_spec
    { isAvailableAsync := some fun _ => true,
      getAvailableCameraTypesAsync := none,
      getAvailableVideoCodecsAsync := none }
  exact ⟨h.2.1 (fun _ => true) rfl, h.2.2.2.2.1.mpr rfl⟩

/-! ## C6: per-context FIFO execution order -/

/-- The dispatcher invariant: executed sequence numbers followed by still
queued sequence numbers form a strictly increasing list, all below the next
sequence number to be assigned. -/
def glWellFormed (st : GLContext) : Prop :=
  List.Pairwise (· < ·) (st.executed ++ st.queue.map GLCommand.seq) ∧
  ∀ s ∈ st.executed ++ st.queue.map GLCommand.seq, s < st.nextSeq

/-- Submission preserves the dispatcher invariant. -/
theorem glSubmit_wf (op : Nat) (st : GLContext) (h : glWellFormed st) :
    glWellFormed (glSubmit op st) := by
  unfold glSubmit
  by_cases hd : st.disposed
  · simpa [hd] using h
  · rcases h with ⟨hp, hb⟩
    simp only [hd, if_neg, Bool.false_eq_true, not_false_eq_true]
    constructor
    · simp only [List.map_append, List.map_cons, List.map_nil, ← List.append_assoc]
      rw [List.pairwise_append]
      refine ⟨hp, by simp, ?_⟩
      intro a ha b hb2
      simp only [List.mem_singleton] at hb2
      subst hb2
      exact hb a ha
    · intro s hs
      simp only [List.map_append, List.map_cons, List.map_nil, ← List.append_assoc,
        List.mem_append, List.mem_singleton] at hs
      rcases hs with hs | hs
      · exact Nat.lt_succ_of_lt (hb s (List.mem_append.mpr hs))
      · subst hs
        exact Nat.lt_succ_self _

/-- One dispatch step preserves the dispatcher invariant. -/
theorem glStep_wf (st : GLContext) (h : glWellFormed st) :
    glWellFormed (glStep st) := by
  unfold glStep
  by_cases hd : st.disposed
  · simpa [hd] using h
  · rcases hq : st.queue with _ | ⟨c, rest⟩
    · simpa [hd, hq] using h
    · rcases h with ⟨hp, hb⟩
      rw [hq] at hp hb
      simp only [hd, hq, Bool.false_eq_true, not_false_eq_true, if_neg]
      constructor
      · simpa [List.append_assoc] using hp
      · intro s hs
        apply hb
        simp only [List.map_cons, List.mem_append, List.mem_cons] at hs ⊢
        tauto

/-- Destruction preserves the dispatcher invariant. -/
theorem glDestroy_wf (st : GLContext) (h : glWellFormed st) :
    glWellFormed (glDestroy st) := by
  unfold glDestroy
  by_cases hd : st.disposed
  · simpa [hd] using h
  · rcases h with ⟨hp, hb⟩
    simp only [hd, Bool.false_eq_true, not_false_eq_true, if_neg]
    rw [List.pairwise_append] at hp
    constructor
    · simpa using hp.1
    · intro s hs
      simp only [List.map_nil, List.append_nil] at hs
      exact hb s (List.mem_append.mpr (Or.inl hs))

/-- Every event preserves the dispatcher invariant. -/
theorem glApply_wf (a : GLAct) (st : GLContext) (h : glWellFormed st) :
    glWellFormed (glApply a st) := by
  cases a with
  | submit op => exact glSubmit_wf op st h
  | step => exact glStep_wf st h
  | destroy => exact glDestroy_wf st h

/-- The invariant holds after any trace from any well-formed start. -/
theorem glRunFrom_wf (acts : List GLAct) (st : GLContext) (h : glWellFormed st) :
    glWellFormed (glRunFrom st acts) := by
  induction acts generalizing st with
  | nil => exact h
  | cons a rest ih => exact ih (glApply a st) (glApply_wf a st h)

/-- C6: along every trace, sequence numbers are assigned strictly increasing
(all commands ever seen carry numbers below the counter), and the executed
commands followed by the still-queued commands are in strictly increasing
sequence order — the dispatcher executes in submission order and never
executes a command before an earlier-submitted command of the same context. -/
theorem dispatcher_executes_in_submission_order (acts : List GLAct) :
    List.Pairwise (· < ·) ((glRun acts).executed ++ (glRun acts).queue.map GLCommand.seq) ∧
    ∀ s ∈ (glRun acts).executed ++ (glRun acts).queue.map GLCommand.seq,
      s < (glRun acts).nextSeq := by
  have h0 : glWellFormed initGLContext := by
    constructor <;> simp [initGLContext]
  exact glRunFrom_wf acts initGLContext h0

/-- Witness for C6: submit, submit, step executes command 0 first. -/
theorem dispatcher_executes_in_submission_order_witness :
    List.Pairwise (· < ·)
      ((glRun [.submit 10, .submit 20, .step]).executed ++
        (glRun [.submit 10, .submit 20, .step]).queue.map GLCommand.seq) ∧
    0 < (glRun [.submit 10, .submit 20, .step]).nextSeq := by
  have h := dispatcher_executes_in_submission_order [.submit 10, .submit 20, .step]
  exact ⟨h.1, h.2 0 (by decide)⟩

/-! ## C7: destruction resolves queued commands with ContextLost -/

/-- Once disposed, every event is a no-op. -/
theorem glApply_disposed (a : GLAct) (st : GLContext) (h : st.disposed = true) :
    glApply a st = st := by
  cases a with
  | submit op => simp [glApply, glSubmit, h]
  | step => simp [glApply, glStep, h]
  | destroy => simp [glApply, glDestroy, h]

/-- Once disposed, whole traces are no-ops. -/
theorem glRunFrom_disposed (acts : List GLAct) (st : GLContext) (h : st.disposed = true) :
    glRunFrom st acts = st := by
  induction acts with
  | nil => rfl
  | cons a rest ih =>
    show glRunFrom (glApply a st) rest = st
    rw [glApply_disposed a st h]
    exact ih

/-- C7: destroying a live context resolves the completion channel of every
one of its queued commands with `ContextLost` (exactly the N queued ones, in
order), empties the queue, sets the disposed flag, executes nothing itself,
and no command of the context executes afterwards. -/
theorem destroy_resolves_contextLost (st : GLContext) (h : st.disposed = false) :
    (glDestroy st).resolutions =
      st.resolutions ++ st.queue.map (fun c => GLResolution.contextLost c.seq) ∧
    (glDestroy st).queue = [] ∧
    (glDestroy st).disposed = true ∧
    (glDestroy st).executed = st.executed ∧
    ∀ acts : List GLAct, (glRunFrom (glDestroy st) acts).executed = st.executed := by
  have hd : glDestroy st =
      { st with
        disposed := true,
        queue := [],
        resolutions := st.resolutions ++ st.queue.map (fun c => .contextLost c.seq) } := by
    unfold glDestroy
    rw [if_neg (by rw [h]; exact Bool.false_ne_true)]
  refine ⟨by rw [hd], by rw [hd], by rw [hd], by rw [hd], ?_⟩
  intro acts
  rw [glRunFrom_disposed acts (glDestroy st) (by rw [hd]), hd]

/-- Witness for C7: a live context holding two queued commands. -/
theorem destroy_resolves_contextLost_witness :
    (glDestroy
      { nextSeq := 2, queue := [⟨0, 5⟩, ⟨1, 6⟩], executed := [], resolutions := [],
        disposed := false }).resolutions =
      [GLResolution.contextLost 0, GLResolution.contextLost 1] ∧
    (glRunFrom
      (glDestroy
        { nextSeq := 2, queue := [⟨0, 5⟩, ⟨1, 6⟩], executed := [], resolutions := [],
          disposed := false }) [.step, .step]).executed = [] := by
  have h := destroy_resolves_contextLost
    { nextSeq := 2, queue := [⟨0, 5⟩, ⟨1, 6⟩], executed := [], resolutions := [],
      disposed := false } rfl
  exact ⟨by simpa using h.1, h.2.2.2.2 [.step, .step]⟩
